import Mathlib

/-!
Verification development for `zsh/.local/bin/filesizehistogram.py`.

The script is a single linear pipeline:

    data = np.array([int(x.split(' ')[0]) for x in open(filename)])
    maxdatalog2 = min(ceil(log2(data.max())), 31)
    bins = [0, 1] + [2**x for x in range(5, maxdatalog2 + 1)]
    median = float(np.median(data)); mean = float(data.mean())
    bmedian = bisect_left(bins, median) - 1; bmean = bisect_left(bins, mean) - 1
    files = len(data); total = data.sum()
    hist, bin_edges = np.histogram(data, bins)

plus the `numfmt` formatter and a three-line usage message.

Embedding conventions:
* Python `int` values are Lean `Int` (arbitrary precision, like Python).
* Python `float` values appearing in this program are all exact dyadic
  rationals (integer statistics divided by 2 or by powers of 1024), so
  `float` is embedded as `PyFloat`, an exact rational kept in lowest terms,
  which coincides with IEEE-754 double semantics on every value this
  program manipulates (each operation below is exact in double precision
  as long as the integers involved stay below 2^53; every claim is settled
  on such inputs).
* Fallible steps return `Except PyError _`; the constructor records which
  operation raised (`int()` parse, `ndarray.max()` on an empty array,
  `math.log2` on a non-positive argument), mirroring where the Python
  exceptions originate.
-/

/-- Which Python exception aborted the run: `int()` raising `ValueError` on a
bad literal, numpy's `ValueError: zero-size array to reduction operation` from
`data.max()` on an empty array, or `math.log2` raising
`ValueError: math domain error` on a non-positive argument. -/
inductive PyError where
  | valueErrorInt : PyError
  | valueErrorEmptyMax : PyError
  | valueErrorLogDomain : PyError
deriving DecidableEq

/-- Equality of `Except` results is decidable whenever both component types
have decidable equality (needed to evaluate the pipeline in proofs). -/
instance {ε α : Type} [DecidableEq ε] [DecidableEq α] : DecidableEq (Except ε α) := fun x y =>
  match x, y with
  | .error e, .error f =>
    if h : e = f then isTrue (congrArg Except.error h)
    else isFalse (fun hh => h (Except.error.inj hh))
  | .error _, .ok _ => isFalse (fun hh => Except.noConfusion hh)
  | .ok _, .error _ => isFalse (fun hh => Except.noConfusion hh)
  | .ok a, .ok b =>
    if h : a = b then isTrue (congrArg Except.ok h)
    else isFalse (fun hh => h (Except.ok.inj hh))

/-- A Python `float` value of this program: an exact rational, kept in lowest
terms with a positive denominator (all floats the script produces are dyadic
rationals obtained exactly, so no rounding is involved). -/
structure PyFloat where
  num : Int
  den : Nat
deriving DecidableEq

/-- Build a `PyFloat` as the exact quotient `n / d` (expects `0 < d`),
reduced to lowest terms. -/
def PyFloat.norm (n : Int) (d : Nat) : PyFloat :=
  let g := Nat.gcd n.natAbs d
  ⟨n / (g : Int), d / g⟩

/-- Exact embedding of a Python `int` converted to `float`. -/
def PyFloat.ofInt (n : Int) : PyFloat := ⟨n, 1⟩

/-- Python true division `a / b` of two ints (`b > 0`), producing a float;
exact for the values this program computes. -/
def pyTrueDiv (a b : Int) : PyFloat :=
  PyFloat.norm a b.toNat

/-- `s / 1024.0`: the float division performed by `numfmt`'s loop (exact:
dividing by a power of two). -/
def PyFloat.div1024 (q : PyFloat) : PyFloat :=
  PyFloat.norm q.num (q.den * 1024)

/-- The comparison `(n : int) <= (q : float)` (exact, as in Python). -/
def PyFloat.intLe (n : Int) (q : PyFloat) : Bool :=
  decide (n * (q.den : Int) ≤ q.num)

/-- The comparison `(e : int) < (q : float)` (exact, as in Python). -/
def PyFloat.intLt (e : Int) (q : PyFloat) : Bool :=
  decide (e * (q.den : Int) < q.num)

/-- Round `100 * q` to the nearest integer, ties to even: the rounding that
`f"{s:.2f}"` applies to an exactly representable double. -/
def PyFloat.round2 (q : PyFloat) : Int :=
  let t : Int := q.num * 100
  let d : Int := (q.den : Int)
  let i : Int := Int.fdiv t d
  let r : Int := t - i * d
  if 2 * r < d then i
  else if d < 2 * r then i + 1
  else if i % 2 = 0 then i else i + 1

/-- Decimal rendering of a nonnegative integer number of hundredths as
`"<int>.<2 digits>"`. -/
def hundredthsRepr (c : Nat) : String :=
  toString (c / 100) ++ "." ++ (if c % 100 < 10 then "0" ++ toString (c % 100) else toString (c % 100))

/-- `f"{s:.2f}"`: fixed-point rendering of a float with exactly two decimal
places (round half to even). -/
def PyFloat.fmt2 (q : PyFloat) : String :=
  let c := q.round2
  if c < 0 then "-" ++ hundredthsRepr c.natAbs else hundredthsRepr c.natAbs

/-- `marks = "KMGTP"` from `numfmt`. -/
def marks : String := "KMGTP"

/-- Python `marks[m-1:m]`: the empty string when `m = 0` (the slice
`marks[-1:0]` is empty), otherwise the single character `marks[m-1]`
(the loop keeps `m ≤ 5`). -/
def marksSlice (m : Nat) : String :=
  if m = 0 then "" else String.mk ((marks.toList.drop (m - 1)).take 1)

/-- The `while s >= 1024 and m < len(marks)` loop of `numfmt` on an int `s`:
floor-divides by 1024 (`s //= 1024`) and increments `m`. The guard
`m < len(marks) = 5` is realised by running on fuel `5 - m`, so
`fmtLoopInt (5 - m) s m` is the loop entered with counters `s, m`. -/
def fmtLoopInt : Nat → Int → Nat → Int × Nat
  | 0, s, m => (s, m)
  | fuel + 1, s, m =>
    if 1024 ≤ s then fmtLoopInt fuel (Int.fdiv s 1024) (m + 1) else (s, m)

/-- `numfmt` on a Python `int` argument: truncating 1024-division loop, then
`f"{s}{marks[m-1:m]}"` (no decimal places). -/
def numfmtInt (s : Int) : String :=
  let r := fmtLoopInt 5 s 0
  toString r.1 ++ marksSlice r.2

/-- The same loop on a `float` argument: true division `s /= 1024.0`. -/
def fmtLoopFloat : Nat → PyFloat → Nat → PyFloat × Nat
  | 0, s, m => (s, m)
  | fuel + 1, s, m =>
    if PyFloat.intLe 1024 s then fmtLoopFloat fuel s.div1024 (m + 1) else (s, m)

/-- `numfmt` on a Python `float` argument: true-division loop, then
`f"{s:.2f}{marks[m-1:m]}"` (exactly two decimal places). -/
def numfmtFloat (s : PyFloat) : String :=
  let r := fmtLoopFloat 5 s 0
  r.1.fmt2 ++ marksSlice r.2

/-! ## Input loading

`data = np.array([int(x.split(' ')[0]) for x in open(filename)])`

A line is modelled as its list of characters (iterating a Python file yields
each line with its trailing newline; whether the newline is present is
irrelevant below, since it either lands in the discarded remainder of the
line or is stripped by `int()`, so inputs in the theorems are written
without it). -/

/-- The characters Python's `str.strip()` / `int()` treat as whitespace
(ASCII part; exotic Unicode whitespace does not occur in the inputs
considered). -/
def pyIsSpace (c : Char) : Bool :=
  c = ' ' || c = '\t' || c = '\n' || c = '\x0d' || c = '\x0c' || c = '\x0b'

/-- Leading/trailing-whitespace stripping, as `int()` applies to its string
argument before parsing. -/
def pyStripWs (l : List Char) : List Char :=
  ((l.dropWhile pyIsSpace).reverse.dropWhile pyIsSpace).reverse

/-- Numeric value of a list of decimal digits. -/
def digitsVal (l : List Char) : Nat :=
  l.foldl (fun a c => a * 10 + (c.toNat - 48)) 0

/-- A nonempty all-digit run parses to its value, otherwise `None`. -/
def digitsOpt (l : List Char) : Option Nat :=
  if l.isEmpty then none
  else if l.all Char.isDigit then some (digitsVal l) else none

/-- Python `int(s)` on a string: strip surrounding whitespace, accept an
optional `+`/`-` sign followed by a nonempty run of decimal digits (digit
separators such as `_` do not occur in the inputs considered and are not
modelled); anything else raises `ValueError`. Note that negative literals
are accepted. -/
def pyIntOfChars (l : List Char) : Option Int :=
  match pyStripWs l with
  | [] => none
  | c :: cs =>
    if c = '-' then (digitsOpt cs).map (fun n => -(n : Int))
    else if c = '+' then (digitsOpt cs).map (fun n => (n : Int))
    else (digitsOpt (c :: cs)).map (fun n => (n : Int))

/-- Python `x.split(' ')`: split at every single space character, keeping
empty pieces (so the result is always nonempty). -/
def splitSp : List Char → List (List Char)
  | [] => [[]]
  | c :: cs =>
    if c = ' ' then [] :: splitSp cs
    else
      let r := splitSp cs
      (c :: r.headD []) :: r.tail

/-- `int(x.split(' ')[0])` for one line `x`. -/
def parseSize (x : List Char) : Option Int :=
  pyIntOfChars ((splitSp x).headD [])

/-- The whole list comprehension: parse every line, propagating the first
`ValueError` (there is no per-line recovery). An empty file yields an empty
sample list. -/
def loadData : List (List Char) → Except PyError (List Int)
  | [] => .ok []
  | x :: xs =>
    match parseSize x with
    | none => .error .valueErrorInt
    | some v =>
      match loadData xs with
      | .ok vs => .ok (v :: vs)
      | .error e => .error e

/-! ## Statistics and bucket edges -/

/-- `data.max()`: numpy raises
`ValueError: zero-size array to reduction operation maximum` on an empty
array, otherwise returns the maximum element. -/
def dataMax : List Int → Except PyError Int
  | [] => .error .valueErrorEmptyMax
  | x :: xs => .ok (xs.foldl max x)

/-- Fueled ceiling base-2 logarithm: `⌈log2 m⌉` via the recurrence
`⌈log2 m⌉ = ⌈log2 ⌈m/2⌉⌉ + 1` for `m ≥ 2`; the fuel only bounds the
recursion depth. -/
def ceilLog2Fuel : Nat → Nat → Nat
  | 0, _ => 0
  | fuel + 1, m => if m ≤ 1 then 0 else ceilLog2Fuel fuel ((m + 1) / 2) + 1

/-- `ceil(log2(m))` for a Python int `m`, as the script computes it through
`math.log2` (a correctly rounded double log): `math.log2` raises
`ValueError: math domain error` for `m ≤ 0`. For `1 ≤ m` the float
computation agrees with the exact `⌈log2 m⌉`: powers of two have an exact
double logarithm; for other `m < 2^31` the true logarithm is at least
`1/(2^31 ln 2) ≈ 6.7e-10` away from the neighbouring integers while a double
near 31 resolves `2^-48 ≈ 3.6e-15`, so rounding cannot cross an integer; and
for `m ≥ 2^31` both the float and the exact value are `≥ 31`, which is all
the script uses (it caps the result at 31). -/
def pyCeilLog2 (m : Int) : Except PyError Nat :=
  if m ≤ 0 then .error .valueErrorLogDomain
  else .ok (ceilLog2Fuel m.toNat m.toNat)

/-- `bins = [0, 1] + [2**x for x in range(mindatalog2, maxdatalog2 + 1)]`
with `mindatalog2 = 5` (for `maxdatalog2 < 5` the comprehension is empty). -/
def mkBins (maxdatalog2 : Nat) : List Int :=
  [0, 1] ++ (List.range' 5 (maxdatalog2 + 1 - 5)).map (fun x => (2 : Int) ^ x)

/-- Insert into a sorted list (ascending). -/
def insertSorted (x : Int) : List Int → List Int
  | [] => [x]
  | y :: ys => if x ≤ y then x :: y :: ys else y :: insertSorted x ys

/-- Ascending insertion sort, modelling the sort inside `np.median`. -/
def sortInts : List Int → List Int
  | [] => []
  | x :: xs => insertSorted x (sortInts xs)

/-- `float(np.median(data))` for nonempty integer `data`: sort; take the
middle element for odd length, the average of the two middle elements for
even length (exact: an average of two ints is a dyadic rational). -/
def npMedian (data : List Int) : PyFloat :=
  let s := sortInts data
  let n := s.length
  if n % 2 = 1 then PyFloat.ofInt (s.getD (n / 2) 0)
  else pyTrueDiv (s.getD (n / 2 - 1) 0 + s.getD (n / 2) 0) 2

/-- `float(data.mean())`: the exact sum divided by the length (exact for the
inputs the claims are settled on). -/
def npMean (data : List Int) : PyFloat :=
  pyTrueDiv data.sum (data.length : Int)

/-- `bisect.bisect_left(bins, x)` for the sorted edge list `bins` and a float
needle `x`: the leftmost insertion point, i.e. the number of leading elements
strictly below `x`. -/
def bisectLeft (bins : List Int) (x : PyFloat) : Nat :=
  (bins.takeWhile (fun e => PyFloat.intLt e x)).length

/-- `np.histogram(data, bins)` with an explicit monotone edge sequence: one
count per adjacent pair of edges; every bucket is half-open `[lo, hi)`
except the last, which is closed `[lo, hi]`; samples below the first or
above the last edge are not tallied at all. -/
def npHistogram (data : List Int) : List Int → List Nat
  | b0 :: b1 :: b2 :: rest =>
    data.countP (fun s => decide (b0 ≤ s ∧ s < b1)) :: npHistogram data (b1 :: b2 :: rest)
  | [b0, b1] => [data.countP (fun s => decide (b0 ≤ s ∧ s ≤ b1))]
  | _ => []

/-! ## The pipeline -/

/-- Every value the `__main__` block computes from the sample data. -/
structure RunResult where
  data : List Int
  mx : Int
  bins : List Int
  median : PyFloat
  mean : PyFloat
  bmedian : Int
  bmean : Int
  files : Nat
  total : Int
  hist : List Nat
deriving DecidableEq

/-- The `__main__` pipeline after the filename has been resolved: parse all
lines, take the maximum (numpy raises on an empty array), compute
`maxdatalog2 = min(ceil(log2(max)), 31)` (`math.log2` raises on `max ≤ 0`),
build the edges, and compute the statistics and per-bucket counts. -/
def runPipeline (lines : List (List Char)) : Except PyError RunResult :=
  match loadData lines with
  | .error e => .error e
  | .ok data =>
    match dataMax data with
    | .error e => .error e
    | .ok mx =>
      match pyCeilLog2 mx with
      | .error e => .error e
      | .ok c =>
        let k := min c 31
        let bins := mkBins k
        .ok { data := data
              mx := mx
              bins := bins
              median := npMedian data
              mean := npMean data
              bmedian := (bisectLeft bins (npMedian data) : Int) - 1
              bmean := (bisectLeft bins (npMean data) : Int) - 1
              files := data.length
              total := data.sum
              hist := npHistogram data bins }

/-! ## CLI glue -/

/-- The message printed when no input argument is given: one string per
`print(...)` call in the source (three calls). -/
def usageMessage : List String :=
  ["Usage: filesizehistogram.py input",
   "       can use \"-\" as input filename, indicate input is taken from stdin.",
   "       otherwise input file should be a result of \"find -printf \x27%s %p\x27\""]

/-- The exit status of `sys.exit(1)` in the no-argument branch. -/
def usageExitCode : Nat := 1

/-! ## General lemmas -/

/-- One sample's contribution to an inclusive interval `[a, c]` split at an
interior point `b` into `[a, b) ⊎ [b, c]`. -/
theorem ite_interval_split (x a b c : Int) (hab : a ≤ b) (hbc : b ≤ c) :
    (if decide (a ≤ x ∧ x ≤ c) = true then (1 : Nat) else 0)
      = (if decide (a ≤ x ∧ x < b) = true then (1 : Nat) else 0)
        + (if decide (b ≤ x ∧ x ≤ c) = true then (1 : Nat) else 0) := by
  simp only [decide_eq_true_eq]
  split_ifs <;> omega

/-- Splitting an inclusive integer interval `[a, c]` at an interior point `b`
splits the count: `[a, c] = [a, b) ⊎ [b, c]`. -/
theorem countP_interval_split (l : List Int) (a b c : Int) (hab : a ≤ b) (hbc : b ≤ c) :
    l.countP (fun s => decide (a ≤ s ∧ s ≤ c)) =
      l.countP (fun s => decide (a ≤ s ∧ s < b)) + l.countP (fun s => decide (b ≤ s ∧ s ≤ c)) := by
  induction l with
  | nil => rfl
  | cons x xs ih =>
    rw [List.countP_cons, List.countP_cons, List.countP_cons, ih,
      ite_interval_split x a b c hab hbc]
    omega

/-- The default value of `getLastD` is irrelevant on a nonempty list. -/
theorem getLastD_cons_default (a : Int) (l : List Int) (d d' : Int) :
    (a :: l).getLastD d = (a :: l).getLastD d' := by
  rw [List.getLastD_cons, List.getLastD_cons d']

/-- The head of a `≤`-chain is below its last element. -/
theorem chainLe_head_le_getLastD (l : List Int) (x : Int)
    (h : List.Chain' (· ≤ ·) (x :: l)) : x ≤ (x :: l).getLastD 0 := by
  induction l generalizing x with
  | nil => simp
  | cons y ys ih =>
    have hxy : x ≤ y := (List.chain'_cons.mp h).1
    have := ih y (List.chain'_cons.mp h).2
    rw [List.getLastD_cons, List.getLastD_cons]
    rw [List.getLastD_cons] at this
    exact hxy.trans this

/-- The head of a `<`-chain is below every later element. -/
theorem chainLt_head_lt_getD (x : Int) (xs : List Int) (j : Nat)
    (h : List.Chain' (· < ·) (x :: xs)) (hj : j < xs.length) : x < xs.getD j 0 := by
  induction xs generalizing x j with
  | nil => simp at hj
  | cons y ys ih =>
    have hxy : x < y := (List.chain'_cons.mp h).1
    cases j with
    | zero => simpa using hxy
    | succ j' =>
      simp only [List.getD_cons_succ]
      exact hxy.trans (ih y j' (List.chain'_cons.mp h).2 (by simpa using hj))

/-- Total mass of `np.histogram`: with a `≤`-monotone edge sequence
`b0 :: b1 :: rest`, the per-bucket counts sum to the number of samples in the
inclusive range from the first to the last edge — samples outside that range
are simply dropped. -/
theorem npHistogram_sum (data : List Int) (b0 b1 : Int) (rest : List Int)
    (h : List.Chain' (· ≤ ·) (b0 :: b1 :: rest)) :
    (npHistogram data (b0 :: b1 :: rest)).sum
      = data.countP (fun s => decide (b0 ≤ s ∧ s ≤ (b1 :: rest).getLastD 0)) := by
  induction rest generalizing b0 b1 with
  | nil => simp [npHistogram]
  | cons b2 rest ih =>
    have h' : List.Chain' (· ≤ ·) (b1 :: b2 :: rest) := (List.chain'_cons.mp h).2
    have hab : b0 ≤ b1 := (List.chain'_cons.mp h).1
    have hbc : b1 ≤ (b2 :: rest).getLastD 0 := by
      have := chainLe_head_le_getLastD _ _ h'
      rwa [List.getLastD_cons, getLastD_cons_default b2 rest b1 0] at this
    show (data.countP (fun s => decide (b0 ≤ s ∧ s < b1))
        :: npHistogram data (b1 :: b2 :: rest)).sum
      = data.countP (fun s => decide (b0 ≤ s ∧ s ≤ (b1 :: b2 :: rest).getLastD 0))
    rw [List.getLastD_cons, getLastD_cons_default b2 rest b1 0, List.sum_cons,
      ih b1 b2 h',
      countP_interval_split data b0 b1 ((b2 :: rest).getLastD 0) hab hbc]

/-- `bisect_left` at a needle exactly equal to the `i`-th element of a
strictly increasing list returns `i` (it counts the elements strictly below
the needle). -/
theorem bisectLeft_at_edge (bins : List Int) (i : Nat)
    (hch : List.Chain' (· < ·) bins) (hi : i < bins.length) :
    bisectLeft bins (PyFloat.ofInt (bins.getD i 0)) = i := by
  induction bins generalizing i with
  | nil => simp at hi
  | cons x xs ih =>
    cases i with
    | zero =>
      have hp : PyFloat.intLt x (PyFloat.ofInt ((x :: xs).getD 0 0)) = false := by
        simp [PyFloat.intLt, PyFloat.ofInt]
      show (List.takeWhile
          (fun e => PyFloat.intLt e (PyFloat.ofInt ((x :: xs).getD 0 0))) (x :: xs)).length = 0
      simp only [List.takeWhile_cons, hp]
      simp
    | succ j =>
      have hj : j < xs.length := by simpa using hi
      have hxv : x < xs.getD j 0 := chainLt_head_lt_getD x xs j hch hj
      have hgd : (x :: xs).getD (j + 1) 0 = xs.getD j 0 := by simp
      have hp : PyFloat.intLt x (PyFloat.ofInt (xs.getD j 0)) = true := by
        simpa [PyFloat.intLt, PyFloat.ofInt] using hxv
      show (List.takeWhile
          (fun e => PyFloat.intLt e (PyFloat.ofInt ((x :: xs).getD (j + 1) 0))) (x :: xs)).length
        = j + 1
      rw [hgd]
      simp only [List.takeWhile_cons, hp, if_true, List.length_cons]
      show bisectLeft xs (PyFloat.ofInt (xs.getD j 0)) + 1 = j + 1
      rw [ih j hch.tail hj]

/-- The power-of-two tail of the edge list is strictly increasing. -/
theorem chainLt_powList (a n : Nat) :
    List.Chain' (· < ·) ((List.range' a n).map (fun x => (2 : Int) ^ x)) := by
  induction n generalizing a with
  | zero => simp
  | succ n ih =>
    rw [List.range'_succ, List.map_cons]
    cases n with
    | zero => simp
    | succ m =>
      rw [List.range'_succ, List.map_cons]
      refine List.chain'_cons.mpr ⟨?_, ?_⟩
      · exact pow_lt_pow_right₀ (by norm_num) (Nat.lt_succ_self a)
      · have := ih (a + 1)
        rw [List.range'_succ, List.map_cons] at this
        exact this

/-- The generated edge sequence is strictly increasing. -/
theorem chainLt_mkBins (k : Nat) : List.Chain' (· < ·) (mkBins k) := by
  unfold mkBins
  cases h : k + 1 - 5 with
  | zero => simp [List.range']
  | succ m =>
    rw [List.range'_succ, List.map_cons]
    refine List.chain'_cons.mpr ⟨by norm_num, List.chain'_cons.mpr ⟨by norm_num, ?_⟩⟩
    have := chainLt_powList 5 (m + 1)
    rw [List.range'_succ, List.map_cons] at this
    exact this

/-- The generated edge sequence is monotone. -/
theorem chainLe_mkBins (k : Nat) : List.Chain' (· ≤ ·) (mkBins k) :=
  (chainLt_mkBins k).imp (fun _ _ h => le_of_lt h)

/-- Inversion: a successful run of the pipeline determines every field of the
result from the parsed data. -/
theorem runPipeline_ok_inv (lines : List (List Char)) (r : RunResult)
    (h : runPipeline lines = Except.ok r) :
    ∃ data mx c, loadData lines = .ok data ∧ dataMax data = .ok mx ∧
      pyCeilLog2 mx = .ok c ∧
      r = { data := data
            mx := mx
            bins := mkBins (min c 31)
            median := npMedian data
            mean := npMean data
            bmedian := (bisectLeft (mkBins (min c 31)) (npMedian data) : Int) - 1
            bmean := (bisectLeft (mkBins (min c 31)) (npMean data) : Int) - 1
            files := data.length
            total := data.sum
            hist := npHistogram data (mkBins (min c 31)) } := by
  unfold runPipeline at h
  cases hL : loadData lines with
  | error e => rw [hL] at h; simp at h
  | ok data =>
    rw [hL] at h
    dsimp only at h
    cases hM : dataMax data with
    | error e => rw [hM] at h; simp at h
    | ok mx =>
      rw [hM] at h
      dsimp only at h
      cases hC : pyCeilLog2 mx with
      | error e => rw [hC] at h; simp at h
      | ok c =>
        rw [hC] at h
        simp only [Except.ok.injEq] at h
        exact ⟨data, mx, c, rfl, hM, hC, h.symm⟩

/-- A decimal digit is not a space character. -/
theorem digit_ne_space (c : Char) (h : c.isDigit = true) : c ≠ ' ' := by
  rintro rfl; exact absurd h (by decide)

/-- A decimal digit is not a sign character. -/
theorem digit_ne_minus (c : Char) (h : c.isDigit = true) : c ≠ '-' := by
  rintro rfl; exact absurd h (by decide)

/-- A decimal digit is not a plus character. -/
theorem digit_ne_plus (c : Char) (h : c.isDigit = true) : c ≠ '+' := by
  rintro rfl; exact absurd h (by decide)

/-- A decimal digit is not Python whitespace. -/
theorem digit_not_pyIsSpace (c : Char) (h : c.isDigit = true) : pyIsSpace c = false := by
  have h1 : c ≠ ' ' := by rintro rfl; exact absurd h (by decide)
  have h2 : c ≠ '\t' := by rintro rfl; exact absurd h (by decide)
  have h3 : c ≠ '\n' := by rintro rfl; exact absurd h (by decide)
  have h4 : c ≠ '\x0d' := by rintro rfl; exact absurd h (by decide)
  have h5 : c ≠ '\x0c' := by rintro rfl; exact absurd h (by decide)
  have h6 : c ≠ '\x0b' := by rintro rfl; exact absurd h (by decide)
  simp [pyIsSpace, h1, h2, h3, h4, h5, h6]

/-- `dropWhile` is the identity when no element satisfies the predicate. -/
theorem dropWhile_eq_self_of_not (p : Char → Bool) (l : List Char)
    (h : ∀ c ∈ l, p c = false) : l.dropWhile p = l := by
  cases l with
  | nil => rfl
  | cons a l => rw [List.dropWhile_cons, h a (by simp)]; simp

/-- Stripping whitespace from a string with no whitespace characters is the
identity. -/
theorem pyStripWs_eq_self (l : List Char) (h : ∀ c ∈ l, pyIsSpace c = false) :
    pyStripWs l = l := by
  unfold pyStripWs
  rw [dropWhile_eq_self_of_not _ _ h,
    dropWhile_eq_self_of_not _ _ (fun c hc => h c (List.mem_reverse.mp hc)),
    List.reverse_reverse]

/-- The first space-separated piece of `ds ++ " " ++ rest` is `ds` when `ds`
contains no space. -/
theorem splitSp_head_append (ds rest : List Char) (h : ∀ c ∈ ds, c ≠ ' ') :
    (splitSp (ds ++ ' ' :: rest)).headD [] = ds := by
  induction ds with
  | nil => simp [splitSp]
  | cons c cs ih =>
    have hc : c ≠ ' ' := h c (by simp)
    rw [List.cons_append,
      show splitSp (c :: (cs ++ ' ' :: rest))
          = (c :: (splitSp (cs ++ ' ' :: rest)).headD []) :: (splitSp (cs ++ ' ' :: rest)).tail
        from by simp [splitSp, hc],
      List.headD_cons, ih (fun c' hc' => h c' (by simp [hc']))]

/-- `int()` on a nonempty all-digit string returns its decimal value. -/
theorem pyIntOfChars_digits (ds : List Char) (hne : ds ≠ [])
    (hd : ds.all Char.isDigit = true) :
    pyIntOfChars ds = some ((digitsVal ds : Nat) : Int) := by
  unfold pyIntOfChars
  rw [pyStripWs_eq_self ds
    (fun c hc => digit_not_pyIsSpace c (List.all_eq_true.mp hd c hc))]
  cases ds with
  | nil => exact absurd rfl hne
  | cons c cs =>
    have hcd : c.isDigit = true := List.all_eq_true.mp hd c (by simp)
    have h1 : c ≠ '-' := digit_ne_minus c hcd
    have h2 : c ≠ '+' := digit_ne_plus c hcd
    simp [h1, h2, digitsOpt, hd]

/-- Parsing a line whose first space-separated token is a nonempty digit
string succeeds with that token's value; the rest of the line is ignored. -/
theorem parseSize_digit_token (ds rest : List Char) (hne : ds ≠ [])
    (hd : ds.all Char.isDigit = true) :
    parseSize (ds ++ ' ' :: rest) = some ((digitsVal ds : Nat) : Int) := by
  unfold parseSize
  rw [splitSp_head_append ds rest
    (fun c hc => digit_ne_space c (List.all_eq_true.mp hd c hc))]
  exact pyIntOfChars_digits ds hne hd

/-- Parsing a line whose first space-separated token is a minus sign followed
by digits succeeds with the negated value: the loader accepts negative sizes. -/
theorem parseSize_neg_digit_token (ds rest : List Char) (hne : ds ≠ [])
    (hd : ds.all Char.isDigit = true) :
    parseSize ('-' :: (ds ++ ' ' :: rest)) = some (-((digitsVal ds : Nat) : Int)) := by
  unfold parseSize
  have hh : (splitSp (ds ++ ' ' :: rest)).headD [] = ds :=
    splitSp_head_append ds rest
      (fun c hc => digit_ne_space c (List.all_eq_true.mp hd c hc))
  rw [show (splitSp ('-' :: (ds ++ ' ' :: rest))).headD [] = '-' :: ds from by
    rw [show splitSp ('-' :: (ds ++ ' ' :: rest))
          = ('-' :: (splitSp (ds ++ ' ' :: rest)).headD []) :: (splitSp (ds ++ ' ' :: rest)).tail
        from by simp [splitSp],
      List.headD_cons, hh]]
  unfold pyIntOfChars
  rw [show pyStripWs ('-' :: ds) = '-' :: ds from
    pyStripWs_eq_self _ (by
      intro c hc
      rcases List.mem_cons.mp hc with rfl | hm
      · decide
      · exact digit_not_pyIsSpace c (List.all_eq_true.mp hd c hm))]
  simp [digitsOpt, hd, List.isEmpty_eq_true, hne]

/-- The loader succeeds when every line parses. -/
theorem loadData_ok_of_all (lines : List (List Char))
    (h : ∀ x ∈ lines, parseSize x ≠ none) : ∃ vs, loadData lines = Except.ok vs := by
  induction lines with
  | nil => exact ⟨[], rfl⟩
  | cons x xs ih =>
    obtain ⟨vs, hvs⟩ := ih (fun y hy => h y (by simp [hy]))
    cases hp : parseSize x with
    | none => exact absurd hp (h x (by simp))
    | some v => exact ⟨v :: vs, by simp [loadData, hp, hvs]⟩

/-- One unparseable line anywhere makes the loader fail with the `int()`
`ValueError` (there is no per-line recovery). -/
theorem loadData_error_of_mem (lines : List (List Char)) (x : List Char)
    (hx : x ∈ lines) (hp : parseSize x = none) :
    loadData lines = Except.error PyError.valueErrorInt := by
  induction lines with
  | nil => simp at hx
  | cons y ys ih =>
    rcases List.mem_cons.mp hx with rfl | hmem
    · simp [loadData, hp]
    · cases hq : parseSize y with
      | none => simp [loadData, hq]
      | some v => simp [loadData, hq, ih hmem]

/-! ## Claims

One theorem per claim of the specification, preceded by counterexample /
witness material where the claim's status requires it. -/

/-- C1, counterexample: for the single accepted sample `4294967296` (= 2^32),
the pipeline reads 1 sample but the per-bucket counts sum to 0, not 1: the
edge sequence is capped at 2^31 and `np.histogram` silently drops samples
above its last edge, so the claimed invariant `sum(counts) = number of
samples` fails. -/
theorem C1_counterexample :
    (runPipeline [("4294967296 x".toList)]).map (fun r => r.files) = Except.ok 1 ∧
    (runPipeline [("4294967296 x".toList)]).map (fun r => r.hist.sum) = Except.ok 0 := by
  decide

/-- C1 (amended): for every run the pipeline accepts, the per-bucket counts
sum to the number of samples lying between the first edge (0) and the last
edge inclusive; samples above the last edge (above 2^31, or above 1 when the
maximum is at most 16 so that no power-of-two edge is generated) are dropped
and are missing from that sum. -/
theorem C1_histogram_mass_amended (lines : List (List Char)) (r : RunResult)
    (h : runPipeline lines = Except.ok r) :
    r.hist.sum = r.data.countP (fun s => decide (0 ≤ s ∧ s ≤ r.bins.getLastD 0)) := by
  obtain ⟨data, mx, c, hL, hM, hC, rfl⟩ := runPipeline_ok_inv lines r h
  show (npHistogram data (mkBins (min c 31))).sum
    = data.countP (fun s => decide (0 ≤ s ∧ s ≤ (mkBins (min c 31)).getLastD 0))
  have hch : List.Chain' (· ≤ ·)
      ((0 : Int) :: 1 :: (List.range' 5 (min c 31 + 1 - 5)).map (fun x => (2 : Int) ^ x)) :=
    chainLe_mkBins (min c 31)
  show (npHistogram data
      ((0 : Int) :: 1 :: (List.range' 5 (min c 31 + 1 - 5)).map (fun x => (2 : Int) ^ x))).sum
    = data.countP (fun s => decide (0 ≤ s ∧ s ≤
        ((0 : Int) :: 1 :: (List.range' 5 (min c 31 + 1 - 5)).map
          (fun x => (2 : Int) ^ x)).getLastD 0))
  rw [npHistogram_sum data 0 1 _ hch,
    List.getLastD_cons 0 0
      ((1 : Int) :: (List.range' 5 (min c 31 + 1 - 5)).map (fun x => (2 : Int) ^ x))]

/-- Concrete input for the C1 witness: the single line `40 a`. -/
def c1Lines : List (List Char) := [("40 a".toList)]

/-- The run result the pipeline produces on `c1Lines`. -/
def c1Result : RunResult :=
  { data := [40], mx := 40, bins := [0, 1, 32, 64], median := PyFloat.ofInt 40,
    mean := PyFloat.ofInt 40, bmedian := 2, bmean := 2, files := 1, total := 40,
    hist := [0, 0, 1] }

/-- C1 witness: the amended mass equation evaluated on the concrete run for
input line `40 a` (1 sample, counts `[0, 0, 1]`). -/
theorem C1_histogram_mass_witness :
    c1Result.hist.sum
      = c1Result.data.countP (fun s => decide (0 ≤ s ∧ s ≤ c1Result.bins.getLastD 0)) :=
  C1_histogram_mass_amended c1Lines c1Result (by decide)

/-- C2: the intended behaviour (visible in the chart's open-ended last label
`"1G~"`) is that a sample at or above the last edge lands in the final
bucket; but for the accepted sample `2147483649` (= 2^31 + 1, above the
capped last edge 2^31 = 2147483648), `np.histogram` counts it in no bucket
at all: the counts sum to 0 and the last bucket's count is 0. -/
theorem C2_oversized_sample_dropped :
    (runPipeline [("2147483649 x".toList)]).map
        (fun r => (r.files, r.bins.getLastD 0, r.hist.sum, r.hist.getLastD 0))
      = Except.ok (1, 2147483648, 0, 0) := by
  decide

/-- C3, counterexample: for input lines `32 a`, `96 b` the mean and median
are both exactly 64 = `bins[3]`, yet the computed statistic bucket index is
2, the preceding bucket, not 3 (a sample of value 64 would be counted in
bucket 3 = `[64, 128)`): `bisect_left(bins, v) - 1` disagrees with sample
bucketing on edge values. -/
theorem C3_counterexample :
    (runPipeline [("32 a".toList), ("96 b".toList)]).map
        (fun r => (r.bins.getD 3 0, r.mean, r.median, r.bmean, r.bmedian))
      = Except.ok (64, PyFloat.ofInt 64, PyFloat.ofInt 64, 2, 2) ∧ (2 : Int) ≠ 3 := by
  decide

/-- C3 (amended): in every accepted run, a statistic (mean or median) exactly
equal to edge `i` receives the computed bucket index `i - 1` — the bucket
ending at that edge, one less than the half-open sample-bucketing index `i`
claimed by the specification. -/
theorem C3_stat_at_edge_amended (lines : List (List Char)) (r : RunResult) (i : Nat)
    (h : runPipeline lines = Except.ok r) (hi : i < r.bins.length) :
    (r.mean = PyFloat.ofInt (r.bins.getD i 0) → r.bmean = (i : Int) - 1) ∧
    (r.median = PyFloat.ofInt (r.bins.getD i 0) → r.bmedian = (i : Int) - 1) := by
  obtain ⟨data, mx, c, hL, hM, hC, rfl⟩ := runPipeline_ok_inv lines r h
  constructor
  · intro hmean
    have hm : npMean data = PyFloat.ofInt ((mkBins (min c 31)).getD i 0) := hmean
    show (bisectLeft (mkBins (min c 31)) (npMean data) : Int) - 1 = (i : Int) - 1
    rw [hm, bisectLeft_at_edge _ i (chainLt_mkBins _) hi]
  · intro hmedian
    have hm : npMedian data = PyFloat.ofInt ((mkBins (min c 31)).getD i 0) := hmedian
    show (bisectLeft (mkBins (min c 31)) (npMedian data) : Int) - 1 = (i : Int) - 1
    rw [hm, bisectLeft_at_edge _ i (chainLt_mkBins _) hi]

/-- Concrete input for the C3 witness: the single line `64 a`. -/
def c3Lines : List (List Char) := [("64 a".toList)]

/-- The run result the pipeline produces on `c3Lines`: the mean 64 equals
edge 3 of `[0, 1, 32, 64]`. -/
def c3Result : RunResult :=
  { data := [64], mx := 64, bins := [0, 1, 32, 64], median := PyFloat.ofInt 64,
    mean := PyFloat.ofInt 64, bmedian := 2, bmean := 2, files := 1, total := 64,
    hist := [0, 0, 1] }

/-- C3 witness: the amended index computation evaluated on the concrete run
for input line `64 a`, mean 64 = edge 3, computed index 2 = 3 - 1. -/
theorem C3_stat_at_edge_witness : c3Result.bmean = (3 : Int) - 1 :=
  (C3_stat_at_edge_amended c3Lines c3Result 3 (by decide) (by decide)).1 (by decide)

/-- C4: the claim is the intended behaviour but the code crashes: for the
single sample 0 (line `0 x`), `math.log2(0)` raises
`ValueError: math domain error` — the max = 0 edge case is not handled; and
for maximum 1 (lines `1 x`, `0 y`) edge generation yields only `[0, 1]`, of
length 2, with no power-of-two edge, not the claimed length ≥ 3. -/
theorem C4_degenerate_bins :
    runPipeline [("0 x".toList)] = Except.error PyError.valueErrorLogDomain ∧
    (runPipeline [("1 x".toList), ("0 y".toList)]).map (fun r => r.bins)
      = Except.ok [0, 1] := by
  decide

/-- C5, counterexample to both directions of the claimed equivalence: the
line `-5 a` has a first whitespace-separated token that is not a
non-negative integer, yet the loader accepts it (as −5); the line `10<TAB>b`
has first whitespace-separated token `10`, a valid non-negative integer, yet
the loader fails, because the split is on single spaces only, so `int()`
sees `"10\tb"`. -/
theorem C5_counterexample :
    loadData [("-5 a".toList)] = Except.ok [-5] ∧
    loadData [("10\tb".toList)] = Except.error PyError.valueErrorInt := by
  decide

/-- C5 (amended): the loader fails (with the `int()` `ValueError`) iff some
line's first SPACE-separated piece does not parse as a Python integer
literal; a first space-separated piece made of decimal digits parses to its
value with the rest of the line discarded, and a leading minus sign followed
by digits is accepted as a negative size rather than rejected. -/
theorem C5_loader_amended :
    (∀ lines, loadData lines = Except.error PyError.valueErrorInt
      ↔ ∃ x ∈ lines, parseSize x = none) ∧
    (∀ ds rest, ds ≠ [] → ds.all Char.isDigit = true →
      parseSize (ds ++ ' ' :: rest) = some ((digitsVal ds : Nat) : Int)) ∧
    (∀ ds rest, ds ≠ [] → ds.all Char.isDigit = true →
      parseSize ('-' :: (ds ++ ' ' :: rest)) = some (-((digitsVal ds : Nat) : Int))) := by
  refine ⟨fun lines => ⟨?_, ?_⟩, parseSize_digit_token, parseSize_neg_digit_token⟩
  · intro h
    by_contra hno
    push_neg at hno
    obtain ⟨vs, hvs⟩ := loadData_ok_of_all lines hno
    rw [hvs] at h
    exact Except.noConfusion h
  · rintro ⟨x, hx, hp⟩
    exact loadData_error_of_mem lines x hx hp

/-- C5 witness: the amended parse behaviour at the concrete line `42 f.txt`. -/
theorem C5_loader_witness :
    parseSize (("42".toList) ++ ' ' :: ("f.txt".toList))
      = some ((digitsVal ("42".toList) : Nat) : Int) :=
  C5_loader_amended.2.1 ("42".toList) ("f.txt".toList) (by decide) (by decide)

/-- C6, counterexample: on empty input the loader itself succeeds with zero
samples — there is no early empty-input rejection — and the run fails with
numpy's zero-size-reduction `ValueError` raised by `data.max()`, i.e. inside
the statistics computation the claim says is never reached. -/
theorem C6_counterexample :
    loadData [] = Except.ok [] ∧
    runPipeline [] = Except.error PyError.valueErrorEmptyMax := by
  decide

/-- C6 (amended): with zero samples the program does fail, but the failure is
`data.max()`'s zero-size-reduction `ValueError` deep in the statistics step,
not an explicit early `EmptyInputError`-style check. -/
theorem C6_empty_fails_at_max_amended :
    runPipeline [] = Except.error PyError.valueErrorEmptyMax ∧
    dataMax [] = Except.error PyError.valueErrorEmptyMax := by
  decide

/-- C7, counterexample: the no-argument usage message is not two lines. -/
theorem C7_counterexample : ¬ (usageMessage.length = 2) := by decide

/-- C7 (amended): with no input argument the program prints a THREE-line
usage message to standard output and exits with status 1 (the source has
three `print(...)` calls before `sys.exit(1)`). -/
theorem C7_usage_amended : usageMessage.length = 3 ∧ usageExitCode = 1 := by
  decide

/-- C8: the formatter produces exactly the six claimed strings, integer
inputs step by truncating (floor) division by 1024, and float inputs step by
true division by 1024 (rendered by `fmt2` with exactly two decimal places as
the four-character dot-digits block in `"1.50K"`, `"1.00G"`). -/
theorem C8_numfmt_formats :
    numfmtInt 0 = "0" ∧ numfmtInt 1023 = "1023" ∧ numfmtInt 1024 = "1K" ∧
    numfmtInt 1048576 = "1M" ∧ numfmtFloat (PyFloat.ofInt 1536) = "1.50K" ∧
    numfmtFloat (PyFloat.ofInt 1073741824) = "1.00G" ∧
    (∀ (fuel : Nat) (s : Int) (m : Nat), 1024 ≤ s →
      fmtLoopInt (fuel + 1) s m = fmtLoopInt fuel (Int.fdiv s 1024) (m + 1)) ∧
    (∀ (fuel : Nat) (q : PyFloat) (m : Nat), PyFloat.intLe 1024 q = true →
      fmtLoopFloat (fuel + 1) q m = fmtLoopFloat fuel q.div1024 (m + 1)) := by
  refine ⟨by decide, by decide, by decide, by decide, by decide, by decide, ?_, ?_⟩
  · intro fuel s m h
    simp only [fmtLoopInt, if_pos h]
  · intro fuel q m h
    simp only [fmtLoopFloat, h, if_pos]

/-- C8 witness: one truncating loop step at the concrete integer 2048. -/
theorem C8_numfmt_witness : fmtLoopInt 1 2048 0 = fmtLoopInt 0 (Int.fdiv 2048 1024) 1 :=
  C8_numfmt_formats.2.2.2.2.2.2.1 0 2048 0 (by norm_num)

/-- The fixed end-to-end input of the specification's scenario. -/
def c9Lines : List (List Char) :=
  ["0 a".toList, "10 b".toList, "2000 c".toList, "3000000 d".toList]

/-- C9: on the four fixed lines the pipeline reads samples
`[0, 10, 2000, 3000000]` (so 4 samples with maximum 3000000), produces the
edges `[0, 1, 32, 64, …, 4194304]` ending at 2^22 (k = 22), counts summing
to 4, and the mean `PyFloat.mk 1501005 2` (= 750502.5) formatting as
`"732.91K"`. -/
theorem C9_end_to_end :
    (runPipeline c9Lines).map (fun r => (r.data, r.mx, r.bins)) =
      Except.ok ([0, 10, 2000, 3000000], 3000000,
        [0, 1, 32, 64, 128, 256, 512, 1024, 2048, 4096, 8192, 16384, 32768,
         65536, 131072, 262144, 524288, 1048576, 2097152, 4194304]) ∧
    (runPipeline c9Lines).map (fun r => (r.files, r.hist.sum, r.mean, numfmtFloat r.mean)) =
      Except.ok (4, 4, PyFloat.mk 1501005 2, "732.91K") := by
  constructor <;> decide

/-- One loop step of `numfmt` on a nonnegative integer, in `Nat` terms:
Python's `s //= 1024` is Nat division. -/
theorem fmtLoopInt_step_nat (fuel a m : Nat) (h : 1024 ≤ a) :
    fmtLoopInt (fuel + 1) (a : Int) m = fmtLoopInt fuel ((a / 1024 : Nat) : Int) (m + 1) := by
  have h' : (1024 : Int) ≤ (a : Int) := by exact_mod_cast h
  have hdiv : Int.fdiv (a : Int) 1024 = ((a / 1024 : Nat) : Int) := by
    exact_mod_cast (Int.ofNat_fdiv a 1024).symm
  simp only [fmtLoopInt, if_pos h', hdiv]

/-- For `n ≥ 1024^5` the `numfmt` loop performs exactly five divisions and
exits with `m = 5` (the suffix guard), leaving `n / 1024^5`. -/
theorem fmtLoopInt_pow5 (n : Nat) (h : 1024 ^ 5 ≤ n) :
    fmtLoopInt 5 (n : Int) 0 = (((n / 1024 ^ 5 : Nat) : Int), 5) := by
  have h1 : 1024 ≤ n := le_trans (by norm_num) h
  have h2 : 1024 ≤ n / 1024 := by
    rw [Nat.le_div_iff_mul_le (by norm_num)]
    exact le_trans (by norm_num) h
  have h3 : 1024 ≤ n / 1024 / 1024 := by
    rw [Nat.div_div_eq_div_mul, Nat.le_div_iff_mul_le (by norm_num)]
    exact le_trans (by norm_num) h
  have h4 : 1024 ≤ n / 1024 / 1024 / 1024 := by
    rw [Nat.div_div_eq_div_mul, Nat.div_div_eq_div_mul,
      Nat.le_div_iff_mul_le (by norm_num)]
    exact le_trans (by norm_num) h
  have h5 : 1024 ≤ n / 1024 / 1024 / 1024 / 1024 := by
    rw [Nat.div_div_eq_div_mul, Nat.div_div_eq_div_mul, Nat.div_div_eq_div_mul,
      Nat.le_div_iff_mul_le (by norm_num)]
    exact le_trans (by norm_num) h
  rw [fmtLoopInt_step_nat 4 n 0 h1, fmtLoopInt_step_nat 3 _ 1 h2,
    fmtLoopInt_step_nat 2 _ 2 h3, fmtLoopInt_step_nat 1 _ 3 h4,
    fmtLoopInt_step_nat 0 _ 4 h5]
  show (((n / 1024 / 1024 / 1024 / 1024 / 1024 : Nat) : Int), 5)
    = (((n / 1024 ^ 5 : Nat) : Int), 5)
  have : (n / 1024 / 1024 / 1024 / 1024 / 1024 : Nat) = n / 1024 ^ 5 := by
    rw [Nat.div_div_eq_div_mul, Nat.div_div_eq_div_mul, Nat.div_div_eq_div_mul,
      Nat.div_div_eq_div_mul]
    norm_num
  rw [this]

/-- C10: the suffix is capped at `"P"`: every integer `n ≥ 1024^5` runs the
loop exactly five times and is rendered as the decimal of `n // 1024^5`
followed by `"P"`, so for `n ≥ 1024^6` the numeric part is itself ≥ 1024 —
concretely `numfmt(2^60) = "1024P"` — and no larger suffix exists. -/
theorem C10_suffix_capped :
    (∀ n : Nat, 1024 ^ 5 ≤ n →
      numfmtInt (n : Int) = toString ((n / 1024 ^ 5 : Nat) : Int) ++ "P") ∧
    (∀ n : Nat, 1024 ^ 6 ≤ n → 1024 ≤ n / 1024 ^ 5) ∧
    numfmtInt ((2 : Int) ^ 60) = "1024P" := by
  refine ⟨?_, ?_, by decide⟩
  · intro n h
    show toString (fmtLoopInt 5 (n : Int) 0).1 ++ marksSlice (fmtLoopInt 5 (n : Int) 0).2
      = toString ((n / 1024 ^ 5 : Nat) : Int) ++ "P"
    rw [fmtLoopInt_pow5 n h]
    show toString ((n / 1024 ^ 5 : Nat) : Int) ++ marksSlice 5
      = toString ((n / 1024 ^ 5 : Nat) : Int) ++ "P"
    rw [show marksSlice 5 = "P" from by decide]
  · intro n h
    rw [Nat.le_div_iff_mul_le (by norm_num)]
    exact le_trans (by norm_num) h

/-- C10 witness: the suffix-cap theorem evaluated at `n = 1024^5`. -/
theorem C10_suffix_witness :
    numfmtInt ((1024 ^ 5 : Nat) : Int)
      = toString ((1024 ^ 5 / 1024 ^ 5 : Nat) : Int) ++ "P" :=
  C10_suffix_capped.1 (1024 ^ 5) le_rfl

